import Mathlib

/-!
DashcamSystem native library: darkness classifier and durable file writer.

A shallow embedding of `app/src/main/cpp/native-lib.cpp`:

* `isImageDark` (lines 22-43): the luminance average of a packed ARGB buffer;
* `saveBytesToFile` (lines 46-77) and `appendLog` (lines 79-110): the two
  POSIX `open` / `write` / `fsync` / `close` sequences.

C++ `int` and `long long` values are mathematical integers; every operation
whose C++ behaviour is undefined (signed overflow of `width * height`, a read
past the end of the array, a division by zero) is an explicit `Fault`.
-/

namespace DashcamSystem

/-! ## Machine integers -/

/-- Smallest value of a 32-bit `int` / `jint`. -/
def INT_MIN : Int := -2147483648

/-- Largest value of a 32-bit `int` / `jint`. -/
def INT_MAX : Int := 2147483647

/-- The conversion `(int) x` of a `long long` to a 32-bit `int` (two's complement wrap). -/
def toInt32 (x : Int) : Int := (x + 2147483648) % 4294967296 - 2147483648

/-- Behaviours the C++ standard leaves undefined, reached by `isImageDark`. -/
inductive Fault where
  /-- The product `width * height` does not fit an `int` (line 28). -/
  | signedOverflow
  /-- The read `pixels[i]` with `i` at or past the length of the array (line 30). -/
  | outOfBounds
  /-- The division `sum / total` with `total == 0` (line 40). -/
  | divideByZero
  deriving DecidableEq, Repr

/-- What the JNI environment answers during one native call. -/
structure JNIEnv where
  /-- Whether `GetStringUTFChars(jpath)` hands out the characters (`false`: it returns `nullptr`). -/
  pathChars : Bool
  /-- Whether `GetIntArrayElements`, `GetByteArrayElements` or `GetStringUTFChars(jline)` hands out
  the payload (`false`: it returns `nullptr`). -/
  elements : Bool
  deriving DecidableEq, Repr

/-! ## `isImageDark` -/

/-- Lines 30-36: the luminance `l` of one packed pixel `pix`.
`>>` on a negative `jint` is the arithmetic shift, `/` on `int` truncates. -/
def luminance (pix : Int) : Int :=
  let _a := Int.land (pix >>> (24 : Nat)) 0xFF
  let r := Int.land (pix >>> (16 : Nat)) 0xFF
  let g := Int.land (pix >>> (8 : Nat)) 0xFF
  let b := Int.land pix 0xFF
  Int.tdiv (299 * r + 587 * g + 114 * b) 1000

/-- Lines 29-38: the loop `for (int i = 0; i < total; ++i) sum += l`, with `n` iterations
still to run, the next index `i` and the accumulator `sum`. -/
def sumLoop (pixels : List Int) : Nat → Nat → Int → Except Fault Int
  | 0, _, sum => .ok sum
  | n + 1, i, sum =>
    match pixels[i]? with
    | none => .error .outOfBounds
    | some pix => sumLoop pixels n (i + 1) (sum + luminance pix)

/-- Lines 22-43: `Java_cam_et_dashcamsystem_nativelib_NativeLib_isImageDark`.
`jpixels = none` is the `null` reference. -/
def isImageDark (env : JNIEnv) (jpixels : Option (List Int)) (width height threshold : Int) :
    Except Fault Bool :=
  match jpixels with
  | none => .ok false
  | some pixels =>
    if env.elements = false then .ok false
    else if width * height < INT_MIN ∨ INT_MAX < width * height then .error .signedOverflow
    else
      let total := width * height
      match sumLoop pixels total.toNat 0 0 with
      | .error f => .error f
      | .ok sum =>
        if total = 0 then .error .divideByZero
        else
          let avg := toInt32 (Int.tdiv sum total)
          .ok (decide (avg < threshold))

/-! ### The classifier as the specification words it -/

/-- Bits `lo .. lo+7` of the packed 32-bit pixel whose signed value is `pix`. -/
def channel (pix : Int) (lo : Nat) : Int := (pix % 4294967296) / 2 ^ lo % 256

/-- Per-pixel luminance `floor((299*R + 587*G + 114*B) / 1000)` with `R` = bits 16-23,
`G` = bits 8-15, `B` = bits 0-7. -/
def specLuminance (pix : Int) : Int :=
  (299 * channel pix 16 + 587 * channel pix 8 + 114 * channel pix 0) / 1000

/-- The sum `S` of the per-pixel luminances. -/
def specSum (pixels : List Int) : Int := (pixels.map specLuminance).sum

/-! ## The file system and the system calls

The kernel is the environment of `saveBytesToFile` and `appendLog`: what each call
returns is not decided by the program, so the return values are inputs (`Kernel`), and
the effect of a call on the files follows POSIX for that return value. -/

/-- The bytes of a file, of a `jbyteArray` or of a C string (without its terminating NUL,
so that `strlen` is the length of the list). -/
abbrev Bytes := List UInt8

/-- The regular files by path: their contents, `none` where there is no file. -/
abbrev FileSystem := String → Option Bytes

/-- The file system with the contents of `path` replaced. -/
def FileSystem.store (fs : FileSystem) (path : String) (content : Bytes) : FileSystem :=
  fun q => if q = path then some content else fs q

/-- The flags or-ed to `O_WRONLY` in a call of `open`. -/
structure OpenFlags where
  /-- Flag `O_CREAT`. -/
  creat : Bool
  /-- Flag `O_TRUNC`. -/
  trunc : Bool
  /-- Flag `O_APPEND`. -/
  append : Bool
  deriving DecidableEq, Repr

/-- One system call as a tracer shows it: the arguments and the value returned. -/
inductive Syscall where
  /-- The call `open(path, O_WRONLY | flags, mode)` returned `ret`. -/
  | callOpen (path : String) (flags : OpenFlags) (mode : Nat) (ret : Int)
  /-- The call `write(fd, buf, count)` returned `ret`. -/
  | callWrite (fd : Int) (buf : Bytes) (count : Nat) (ret : Int)
  /-- The call `fsync(fd)` returned `ret`. -/
  | callFsync (fd : Int) (ret : Int)
  /-- The call `close(fd)`. -/
  | callClose (fd : Int)
  deriving DecidableEq, Repr

/-- Whether the call is a `write`. -/
def Syscall.isWrite : Syscall → Bool
  | .callWrite _ _ _ _ => true
  | _ => false

/-- The values the kernel returns to the calls of one native function. -/
structure Kernel where
  /-- The value of `open`: a descriptor, or negative on failure. -/
  openRet : Int
  /-- The value of `write`: the number of bytes transferred, or negative on failure. -/
  writeRet : Int
  /-- The value of `fsync`: zero, or negative on failure. -/
  fsyncRet : Int
  deriving DecidableEq, Repr

/-- The files and the calls made so far, oldest first. -/
structure World where
  /-- The files. -/
  fs : FileSystem
  /-- The trace of system calls. -/
  calls : List Syscall

/-- The files after `open(path, O_WRONLY | flags, mode)` returned `ret`: a failed call
leaves them as they were, a successful one creates an absent file under `O_CREAT` and
empties an existing one under `O_TRUNC`. -/
def openEffect (fs : FileSystem) (path : String) (flags : OpenFlags) (ret : Int) : FileSystem :=
  if ret < 0 then fs
  else
    match fs path with
    | none => if flags.creat then fs.store path [] else fs
    | some _ => if flags.trunc then fs.store path [] else fs

/-- The files after the first `write(fd, buf, count)` on a descriptor just opened on `path`
returned `ret`: the first `ret` bytes of the request are in the file, at its end under
`O_APPEND` and at offset zero otherwise; a failed or empty transfer leaves the files as
they were. -/
def writeEffect (fs : FileSystem) (path : String) (flags : OpenFlags) (buf : Bytes)
    (count : Nat) (ret : Int) : FileSystem :=
  if ret ≤ 0 then fs
  else
    match fs path with
    | none => fs
    | some old =>
      let chunk := (buf.take count).take ret.toNat
      if flags.append then fs.store path (old ++ chunk)
      else fs.store path (chunk ++ old.drop chunk.length)

/-- The call `open(path, O_WRONLY | flags, mode)`. -/
def sysOpen (k : Kernel) (w : World) (path : String) (flags : OpenFlags) (mode : Nat) :
    Int × World :=
  (k.openRet,
    ⟨openEffect w.fs path flags k.openRet, w.calls ++ [.callOpen path flags mode k.openRet]⟩)

/-- The call `write(fd, buf, count)`, `fd` being open on `path` with `flags`. -/
def sysWrite (k : Kernel) (w : World) (path : String) (flags : OpenFlags) (fd : Int)
    (buf : Bytes) (count : Nat) : Int × World :=
  (k.writeRet,
    ⟨writeEffect w.fs path flags buf count k.writeRet,
      w.calls ++ [.callWrite fd buf count k.writeRet]⟩)

/-- The call `fsync(fd)`: the contents of the files are not changed by it. -/
def sysFsync (k : Kernel) (w : World) (fd : Int) : Int × World :=
  (k.fsyncRet, ⟨w.fs, w.calls ++ [.callFsync fd k.fsyncRet]⟩)

/-- The call `close(fd)`. -/
def sysClose (w : World) (fd : Int) : World :=
  ⟨w.fs, w.calls ++ [.callClose fd]⟩

/-- What a native file function leaves: its `jboolean`, the files and the calls it made. -/
structure Outcome where
  /-- The value returned: `JNI_TRUE` or `JNI_FALSE`. -/
  ret : Bool
  /-- The files afterwards. -/
  fs : FileSystem
  /-- The system calls made, oldest first. -/
  calls : List Syscall

/-- The flags `O_CREAT | O_TRUNC` of line 57. -/
def saveFlags : OpenFlags := ⟨true, true, false⟩

/-- The flags `O_CREAT | O_APPEND` of line 89. -/
def appendFlags : OpenFlags := ⟨true, false, true⟩

/-- Lines 46-77: `Java_cam_et_dashcamsystem_nativelib_NativeLib_saveBytesToFile`.
`none` is the `null` reference. -/
def saveBytesToFile (env : JNIEnv) (k : Kernel) (fs : FileSystem)
    (jpath : Option String) (jdata : Option Bytes) : Outcome :=
  match jpath, jdata with
  | some path, some data =>
    let len : Int := data.length
    if env.pathChars = false ∨ env.elements = false then ⟨false, fs, []⟩
    else
      let (fd, w1) := sysOpen k ⟨fs, []⟩ path saveFlags 0o644
      if fd < 0 then ⟨false, w1.fs, w1.calls⟩
      else
        let (wrote, w2) := sysWrite k w1 path saveFlags fd data len.toNat
        if wrote < 0 ∨ wrote ≠ len then
          let w3 := sysClose w2 fd
          ⟨false, w3.fs, w3.calls⟩
        else
          let (_, w3) := sysFsync k w2 fd
          let w4 := sysClose w3 fd
          ⟨true, w4.fs, w4.calls⟩
  | _, _ => ⟨false, fs, []⟩

/-- Lines 79-110: `Java_cam_et_dashcamsystem_nativelib_NativeLib_appendLog`.
`none` is the `null` reference; `line` is the C string `GetStringUTFChars` hands out. -/
def appendLog (env : JNIEnv) (k : Kernel) (fs : FileSystem)
    (jpath : Option String) (jline : Option Bytes) : Outcome :=
  match jpath, jline with
  | some path, some line =>
    if env.pathChars = false ∨ env.elements = false then ⟨false, fs, []⟩
    else
      let (fd, w1) := sysOpen k ⟨fs, []⟩ path appendFlags 0o644
      if fd < 0 then ⟨false, w1.fs, w1.calls⟩
      else
        let len : Nat := line.length
        let (wrote, w2) := sysWrite k w1 path appendFlags fd line len
        if wrote < 0 ∨ wrote.toNat ≠ len then
          let w3 := sysClose w2 fd
          ⟨false, w3.fs, w3.calls⟩
        else
          let (_, w3) := sysFsync k w2 fd
          let w4 := sysClose w3 fd
          ⟨true, w4.fs, w4.calls⟩
  | _, _ => ⟨false, fs, []⟩

/-- The number of `write` calls in a trace. -/
def countWrites (calls : List Syscall) : Nat := (calls.filter Syscall.isWrite).length

/-- The contents found at `path`, empty where there is no file. -/
def contentOrEmpty (fs : FileSystem) (path : String) : Bytes := (fs path).getD []

/-- A JNI environment in which every buffer is handed out. -/
def okEnv : JNIEnv := ⟨true, true⟩

/-- The file system without any file. -/
def noFiles : FileSystem := fun _ => none

/-! ## Lemmas on `isImageDark` -/

theorem land_0xFF (x : Int) : Int.land x 0xFF = x % 256 := by
  cases x with
  | ofNat m =>
    show Int.land (Int.ofNat m) (Int.ofNat 255) = _
    simp only [Int.land]
    have := Nat.and_pow_two_sub_one_eq_mod m 8
    norm_num at this
    rw [this]
    simp
  | negSucc m =>
    show Int.land (Int.negSucc m) (Int.ofNat 255) = _
    simp only [Int.land]
    have h : Nat.ldiff 255 m = 255 - m % 256 := by
      apply Nat.eq_of_testBit_eq
      intro i
      have h1 := Nat.testBit_two_pow_sub_succ (Nat.mod_lt m (by norm_num : 0 < 2^8)) i
      have h2 := Nat.testBit_two_pow_sub_one 8 i
      norm_num at h1 h2
      rw [Nat.testBit_ldiff, h2]
      have e : 255 - m % 256 = 256 - (m % 256 + 1) := by omega
      rw [e, h1]
      have h3 := Nat.testBit_mod_two_pow m 8 i
      norm_num at h3
      rw [h3]
      by_cases hi : i < 8 <;> simp [hi]
    rw [h, Int.negSucc_eq]
    omega

theorem channel_bounds (pix : Int) (lo : Nat) : 0 ≤ channel pix lo ∧ channel pix lo ≤ 255 := by
  unfold channel
  omega

theorem specLuminance_bounds (pix : Int) : 0 ≤ specLuminance pix ∧ specLuminance pix ≤ 255 := by
  have hr := channel_bounds pix 16
  have hg := channel_bounds pix 8
  have hb := channel_bounds pix 0
  unfold specLuminance
  omega

theorem luminance_eq_spec (pix : Int) : luminance pix = specLuminance pix := by
  have hr := channel_bounds pix 16
  have hg := channel_bounds pix 8
  have hb := channel_bounds pix 0
  have er : Int.land (pix >>> (16 : Nat)) 0xFF = channel pix 16 := by
    rw [land_0xFF, Int.shiftRight_eq_div_pow]
    unfold channel
    norm_num
    omega
  have eg : Int.land (pix >>> (8 : Nat)) 0xFF = channel pix 8 := by
    rw [land_0xFF, Int.shiftRight_eq_div_pow]
    unfold channel
    norm_num
    omega
  have eb : Int.land pix 0xFF = channel pix 0 := by
    rw [land_0xFF]
    unfold channel
    norm_num
  unfold luminance specLuminance
  simp only [er, eg, eb]
  exact Int.tdiv_eq_ediv (by omega) (by norm_num)

theorem specLuminance_low24 (pix : Int) :
    specLuminance (pix % 16777216) = specLuminance pix := by
  have hr : channel (pix % 16777216) 16 = channel pix 16 := by
    unfold channel
    norm_num
    omega
  have hg : channel (pix % 16777216) 8 = channel pix 8 := by
    unfold channel
    norm_num
    omega
  have hb : channel (pix % 16777216) 0 = channel pix 0 := by
    unfold channel
    norm_num
  unfold specLuminance
  rw [hr, hg, hb]

theorem specSum_low24 (pixels : List Int) :
    specSum (pixels.map (fun p => p % 16777216)) = specSum pixels := by
  unfold specSum
  rw [List.map_map]
  congr 1
  apply List.map_congr_left
  intro p _
  exact specLuminance_low24 p

theorem specSum_bounds (pixels : List Int) :
    0 ≤ specSum pixels ∧ specSum pixels ≤ 255 * (pixels.length : Int) := by
  unfold specSum
  induction pixels with
  | nil => simp
  | cons p ps ih =>
    have hp := specLuminance_bounds p
    simp only [List.map_cons, List.sum_cons, List.length_cons]
    push_cast
    omega

theorem sumLoop_eq (pixels : List Int) :
    ∀ (n i : Nat) (sum : Int), i + n ≤ pixels.length →
      sumLoop pixels n i sum = .ok (sum + specSum ((pixels.drop i).take n)) := by
  intro n
  induction n with
  | zero =>
    intro i sum _
    simp [sumLoop, specSum]
  | succ n ih =>
    intro i sum hle
    have hi : i < pixels.length := by omega
    rw [sumLoop, List.getElem?_eq_getElem hi]
    simp only
    rw [ih (i + 1) (sum + luminance pixels[i]) (by omega), List.drop_eq_getElem_cons hi,
      List.take_succ_cons, luminance_eq_spec]
    simp only [specSum, List.map_cons, List.sum_cons]
    rw [add_assoc]

theorem toInt32_of_small (x : Int) (h0 : 0 ≤ x) (h1 : x ≤ 255) : toInt32 x = x := by
  unfold toInt32
  omega

/-- On a buffer of exactly `width * height` pixels, with a positive product that fits an
`int`, the code returns the comparison of the floored average with the threshold. -/
theorem isImageDark_eq (env : JNIEnv) (pixels : List Int) (width height threshold : Int)
    (henv : env.elements = true) (hpos : 0 < width * height)
    (hfit : width * height ≤ INT_MAX) (hlen : (pixels.length : Int) = width * height) :
    isImageDark env (some pixels) width height threshold
      = .ok (decide (specSum pixels / (width * height) < threshold)) := by
  have hb := specSum_bounds pixels
  have hn : (width * height).toNat = pixels.length := by omega
  have hloop := sumLoop_eq pixels pixels.length 0 0 (by omega)
  simp only [List.drop_zero, List.take_length, zero_add] at hloop
  have hdiv : Int.tdiv (specSum pixels) (width * height) = specSum pixels / (width * height) :=
    Int.tdiv_eq_ediv hb.1 (le_of_lt hpos)
  have h0 : 0 ≤ specSum pixels / (width * height) := Int.ediv_nonneg hb.1 (le_of_lt hpos)
  have h1 : specSum pixels / (width * height) ≤ 255 := by
    apply Int.ediv_le_of_le_mul hpos
    rw [← hlen]
    exact hb.2
  have hmin : ¬ (width * height < INT_MIN ∨ INT_MAX < width * height) := by
    unfold INT_MIN
    omega
  have hne : width * height ≠ 0 := ne_of_gt hpos
  simp only [isImageDark, henv, Bool.true_eq_false, if_false, hmin, hn, hloop, hne, hdiv,
    toInt32_of_small _ h0 h1]

/-- With a zero dimension the code reaches `sum / total` with `total == 0`. -/
theorem isImageDark_zero_total (env : JNIEnv) (pixels : List Int) (width height threshold : Int)
    (henv : env.elements = true) (hz : width = 0 ∨ height = 0) :
    isImageDark env (some pixels) width height threshold = .error .divideByZero := by
  have h0 : width * height = 0 := by
    rcases hz with h | h <;> simp [h]
  simp [isImageDark, henv, h0, INT_MIN, INT_MAX, sumLoop]

theorem specLuminance_gray (pix v : Int) (hr : channel pix 16 = v) (hg : channel pix 8 = v)
    (hb : channel pix 0 = v) : specLuminance pix = v := by
  unfold specLuminance
  rw [hr, hg, hb]
  omega

theorem specSum_gray (pixels : List Int) (v : Int)
    (hgray : ∀ p ∈ pixels, channel p 16 = v ∧ channel p 8 = v ∧ channel p 0 = v) :
    specSum pixels = (pixels.length : Int) * v := by
  unfold specSum
  induction pixels with
  | nil => simp
  | cons p ps ih =>
    have hp := hgray p (List.mem_cons_self p ps)
    have hps := ih (fun q hq => hgray q (List.mem_cons_of_mem p hq))
    simp only [List.map_cons, List.sum_cons, List.length_cons, hps,
      specLuminance_gray p v hp.1 hp.2.1 hp.2.2]
    push_cast
    ring

/-! ## The classifier: claims C1, C2, C3, C8 -/

/-- C1: for positive `width` and `height` whose product fits a signed 32-bit `int`, and a
buffer of exactly `width * height` pixels, `isImageDark` returns true exactly when
`floor(S / (width * height)) < threshold`, `S` being the sum of the per-pixel
`floor((299 R + 587 G + 114 B) / 1000)`; the result is the same for any buffer that has
the same low 24 bits in every pixel, so the alpha bits (and the sign of the `jint`) do
not matter. -/
theorem isImageDark_average_below_threshold (env : JNIEnv) (pixels : List Int)
    (width height threshold : Int) (henv : env.elements = true)
    (hw : 0 < width) (hh : 0 < height) (hfit : width * height ≤ INT_MAX)
    (hlen : (pixels.length : Int) = width * height) :
    isImageDark env (some pixels) width height threshold
        = .ok (decide (specSum pixels / (width * height) < threshold))
      ∧ ∀ pixels2 : List Int,
          pixels2.map (fun p => p % 16777216) = pixels.map (fun p => p % 16777216) →
          isImageDark env (some pixels2) width height threshold
            = isImageDark env (some pixels) width height threshold := by
  have hpos : 0 < width * height := Int.mul_pos hw hh
  refine ⟨isImageDark_eq env pixels width height threshold henv hpos hfit hlen, ?_⟩
  intro pixels2 hsame
  have hlen2 : (pixels2.length : Int) = width * height := by
    have := congrArg List.length hsame
    simp only [List.length_map] at this
    rw [this, hlen]
  rw [isImageDark_eq env pixels width height threshold henv hpos hfit hlen,
    isImageDark_eq env pixels2 width height threshold henv hpos hfit hlen2,
    ← specSum_low24 pixels2, hsame, specSum_low24 pixels]

/-- C1 at a concrete frame: two pixels with negative `jint` values (alpha `0xFF`),
luminances 255 and 0, average 127, threshold 128. -/
theorem isImageDark_average_below_threshold_witness :
    isImageDark ⟨true, true⟩ (some [-1, -16777216]) 2 1 128
        = .ok (decide (specSum [-1, -16777216] / (2 * 1) < 128))
      ∧ ∀ pixels2 : List Int,
          pixels2.map (fun p => p % 16777216) = [-1, -16777216].map (fun p => p % 16777216) →
          isImageDark ⟨true, true⟩ (some pixels2) 2 1 128
            = isImageDark ⟨true, true⟩ (some [-1, -16777216]) 2 1 128 :=
  isImageDark_average_below_threshold ⟨true, true⟩ [-1, -16777216] 2 1 128 rfl
    (by decide) (by decide) (by decide) (by decide)

/-- C2: for positive `width` and `height` (product fitting an `int`), a buffer of
`width * height` pixels that all have `R = G = B = v` (so `0 ≤ v ≤ 255`; alpha arbitrary)
is dark exactly when `v < threshold`; an all-`0xFFFFFFFF` buffer with threshold 128 is not
dark and an all-`0xFF000000` buffer with threshold 128 is dark. -/
theorem isImageDark_gray (env : JNIEnv) (pixels : List Int) (width height threshold v : Int)
    (henv : env.elements = true) (hw : 0 < width) (hh : 0 < height)
    (hfit : width * height ≤ INT_MAX) (hlen : (pixels.length : Int) = width * height)
    (hgray : ∀ p ∈ pixels, channel p 16 = v ∧ channel p 8 = v ∧ channel p 0 = v) :
    isImageDark env (some pixels) width height threshold = .ok (decide (v < threshold))
      ∧ isImageDark env (some (List.replicate (width * height).toNat (toInt32 0xFFFFFFFF)))
          width height 128 = .ok false
      ∧ isImageDark env (some (List.replicate (width * height).toNat (toInt32 0xFF000000)))
          width height 128 = .ok true := by
  have hpos : 0 < width * height := Int.mul_pos hw hh
  have key : ∀ (ps : List Int) (u t : Int), (ps.length : Int) = width * height →
      (∀ p ∈ ps, channel p 16 = u ∧ channel p 8 = u ∧ channel p 0 = u) →
      isImageDark env (some ps) width height t = .ok (decide (u < t)) := by
    intro ps u t hl hg
    rw [isImageDark_eq env ps width height t henv hpos hfit hl, specSum_gray ps u hg, hl,
      Int.mul_ediv_cancel_left u (ne_of_gt hpos)]
  have hrep : ∀ x : Int,
      ((List.replicate (width * height).toNat x).length : Int) = width * height := by
    intro x
    rw [List.length_replicate]
    omega
  refine ⟨key pixels v threshold hlen hgray, ?_, ?_⟩
  · rw [key _ 255 128 (hrep _) ?_]
    · rfl
    · intro p hp
      rw [List.eq_of_mem_replicate hp]
      decide
  · rw [key _ 0 128 (hrep _) ?_]
    · rfl
    · intro p hp
      rw [List.eq_of_mem_replicate hp]
      decide

/-- C2 at a concrete frame: three mid-gray pixels `0x80808080`, `0x00808080`, `0xFF808080`
(as `jint`) with threshold 129. -/
theorem isImageDark_gray_witness :
    isImageDark ⟨true, true⟩ (some [-2139062144, 8421504, -8355712]) 3 1 129
        = .ok (decide ((128 : Int) < 129))
      ∧ isImageDark ⟨true, true⟩
          (some (List.replicate ((3 : Int) * 1).toNat (toInt32 0xFFFFFFFF))) 3 1 128 = .ok false
      ∧ isImageDark ⟨true, true⟩
          (some (List.replicate ((3 : Int) * 1).toNat (toInt32 0xFF000000))) 3 1 128 = .ok true :=
  isImageDark_gray ⟨true, true⟩ [-2139062144, 8421504, -8355712] 3 1 129 128 rfl
    (by decide) (by decide) (by decide) (by decide) (by decide)

/-- C3: at the frame `width = 0`, `height = 480` with a non-null (empty) buffer and
threshold 128 the code skips the loop and evaluates `sum / total` with `total == 0`:
no `false` is returned. -/
theorem isImageDark_zero_width_divides_by_zero :
    isImageDark ⟨true, true⟩ (some []) 0 480 128 = .error .divideByZero :=
  isImageDark_zero_total ⟨true, true⟩ [] 0 480 128 rfl (Or.inl rfl)

/-- C8 as stated fails: with `width = -1`, `height = 1` and threshold 128 a non-null
buffer is answered `true` (dark), while the null buffer is answered `false`. -/
theorem isImageDark_negative_width_counterexample :
    ((-1 : Int) < 0 ∨ (1 : Int) < 0)
      ∧ isImageDark ⟨true, true⟩ (some [0]) (-1) 1 128 = .ok true
      ∧ isImageDark ⟨true, true⟩ none (-1) 1 128 = .ok false := by
  refine ⟨Or.inl (by decide), ?_, rfl⟩
  simp [isImageDark, INT_MIN, INT_MAX, sumLoop, toInt32]

/-- C8 amended: for a non-null buffer and a negative product `width * height` that fits an
`int` (one dimension negative, the other positive), the code reads no pixel and returns
true exactly when `0 < threshold`; a null buffer is answered `false`. -/
theorem isImageDark_negative_total (env : JNIEnv) (pixels : List Int)
    (width height threshold : Int) (henv : env.elements = true)
    (hneg : width * height < 0) (hfit : INT_MIN ≤ width * height) :
    isImageDark env (some pixels) width height threshold = .ok (decide (0 < threshold))
      ∧ isImageDark env none width height threshold = .ok false := by
  have hmin : ¬ (width * height < INT_MIN ∨ INT_MAX < width * height) := by
    unfold INT_MAX
    omega
  have hn : (width * height).toNat = 0 := by omega
  have hne : width * height ≠ 0 := ne_of_lt hneg
  refine ⟨?_, rfl⟩
  simp [isImageDark, henv, hmin, hn, hne, sumLoop, toInt32]

/-- C8 amended, at `width = -640`, `height = 480`, threshold 40. -/
theorem isImageDark_negative_total_witness :
    isImageDark ⟨true, true⟩ (some [5, 6]) (-640) 480 40 = .ok (decide ((0 : Int) < 40))
      ∧ isImageDark ⟨true, true⟩ none (-640) 480 40 = .ok false :=
  isImageDark_negative_total ⟨true, true⟩ [5, 6] (-640) 480 40 rfl (by decide) (by decide)

/-! ## Lemmas on the file functions -/

theorem saveBytesToFile_ret_iff (env : JNIEnv) (k : Kernel) (fs : FileSystem) (path : String)
    (data : Bytes) :
    (saveBytesToFile env k fs (some path) (some data)).ret = true ↔
      env.pathChars = true ∧ env.elements = true ∧ 0 ≤ k.openRet
        ∧ k.writeRet = (data.length : Int) := by
  unfold saveBytesToFile
  simp only [sysOpen, sysWrite, sysFsync, sysClose]
  split_ifs with h1 h2 h3
  · simp only [Bool.false_eq_true, false_iff]
    rcases h1 with h | h <;> simp [h]
  · simp only [Bool.false_eq_true, false_iff]
    rintro ⟨_, _, h4, _⟩
    omega
  · simp only [Bool.false_eq_true, false_iff]
    rintro ⟨_, _, _, h5⟩
    omega
  · simp only [true_iff]
    simp only [Bool.not_eq_true, not_or, Bool.not_eq_false] at h1
    exact ⟨h1.1, h1.2, by omega, by omega⟩

theorem appendLog_ret_iff (env : JNIEnv) (k : Kernel) (fs : FileSystem) (path : String)
    (line : Bytes) :
    (appendLog env k fs (some path) (some line)).ret = true ↔
      env.pathChars = true ∧ env.elements = true ∧ 0 ≤ k.openRet
        ∧ k.writeRet = (line.length : Int) := by
  unfold appendLog
  simp only [sysOpen, sysWrite, sysFsync, sysClose]
  split_ifs with h1 h2 h3
  · simp only [Bool.false_eq_true, false_iff]
    rcases h1 with h | h <;> simp [h]
  · simp only [Bool.false_eq_true, false_iff]
    rintro ⟨_, _, h4, _⟩
    omega
  · simp only [Bool.false_eq_true, false_iff]
    rintro ⟨_, _, _, h5⟩
    omega
  · simp only [true_iff]
    simp only [Bool.not_eq_true, not_or, Bool.not_eq_false] at h1
    exact ⟨h1.1, h1.2, by omega, by omega⟩

theorem openEffect_saveFlags (fs : FileSystem) (path : String) (ret : Int) (h : 0 ≤ ret) :
    openEffect fs path saveFlags ret = fs.store path [] := by
  have hn : ¬ ret < 0 := by omega
  unfold openEffect
  rw [if_neg hn]
  cases fs path <;> simp [saveFlags]

theorem openEffect_appendFlags (fs : FileSystem) (path : String) (ret : Int) (h : 0 ≤ ret) :
    openEffect fs path appendFlags ret path = some (contentOrEmpty fs path) := by
  have hn : ¬ ret < 0 := by omega
  unfold openEffect contentOrEmpty
  rw [if_neg hn]
  cases hfs : fs path <;> simp [appendFlags, FileSystem.store, hfs]

theorem openEffect_failed (fs : FileSystem) (path : String) (flags : OpenFlags) (ret : Int)
    (h : ret < 0) : openEffect fs path flags ret = fs := by
  unfold openEffect
  rw [if_pos h]

theorem writeEffect_full (fs : FileSystem) (path : String) (flags : OpenFlags) (buf old : Bytes)
    (ret : Int) (hold : fs path = some old) (hret : ret = (buf.length : Int)) :
    writeEffect fs path flags buf buf.length ret path
      = some (if flags.append then old ++ buf else buf ++ old.drop buf.length) := by
  unfold writeEffect
  by_cases hz : ret ≤ 0
  · have hl : buf.length = 0 := by omega
    have hnil : buf = [] := List.length_eq_zero.mp hl
    rw [if_pos hz, hold, hnil]
    simp
  · have ht : ret.toNat = buf.length := by omega
    rw [if_neg hz, hold]
    simp only [ht, List.take_length]
    split_ifs <;> simp [FileSystem.store]

/-- A successful `saveBytesToFile` leaves exactly the payload at `path`. -/
theorem saveBytesToFile_content (env : JNIEnv) (k : Kernel) (fs : FileSystem) (path : String)
    (data : Bytes) (h : (saveBytesToFile env k fs (some path) (some data)).ret = true) :
    (saveBytesToFile env k fs (some path) (some data)).fs path = some data := by
  obtain ⟨h1, h2, h3, h4⟩ := (saveBytesToFile_ret_iff env k fs path data).mp h
  have hn : ¬ k.openRet < 0 := by omega
  have hw : ¬ (k.writeRet < 0 ∨ k.writeRet ≠ (data.length : Int)) := by omega
  have hfs : (fs.store path []) path = some [] := by simp [FileSystem.store]
  have := writeEffect_full (fs.store path []) path saveFlags data [] k.writeRet hfs h4
  simp only [saveBytesToFile, sysOpen, sysWrite, sysFsync, sysClose, h1, h2, Bool.true_eq_false,
    or_self, if_false, hn, hw, openEffect_saveFlags fs path k.openRet h3, Int.toNat_ofNat]
  rw [this]
  simp [saveFlags]

/-- A successful `appendLog` leaves the former contents followed by the line at `path`. -/
theorem appendLog_content (env : JNIEnv) (k : Kernel) (fs : FileSystem) (path : String)
    (line : Bytes) (h : (appendLog env k fs (some path) (some line)).ret = true) :
    (appendLog env k fs (some path) (some line)).fs path
      = some (contentOrEmpty fs path ++ line) := by
  obtain ⟨h1, h2, h3, h4⟩ := (appendLog_ret_iff env k fs path line).mp h
  have hn : ¬ k.openRet < 0 := by omega
  have hw : ¬ (k.writeRet < 0 ∨ k.writeRet.toNat ≠ line.length) := by omega
  have := writeEffect_full (openEffect fs path appendFlags k.openRet) path appendFlags line
    (contentOrEmpty fs path) k.writeRet (openEffect_appendFlags fs path k.openRet h3) h4
  simp only [appendLog, sysOpen, sysWrite, sysFsync, sysClose, h1, h2, Bool.true_eq_false,
    or_self, if_false, hn, hw]
  rw [this]
  simp [appendFlags]

/-! ## The file functions: claims C4, C5, C6, C7, C9, C10 -/

/-- C4: whatever the files were before, if `saveBytesToFile(path, data)` reports success
then the file at `path` holds exactly `data` (nothing of its former contents), for every
length of `data`; hence a successful save of `B` onto the result leaves exactly `B`, also
when `B` is shorter than `data`. -/
theorem saveBytesToFile_success_replaces (env : JNIEnv) (k : Kernel) (fs : FileSystem)
    (path : String) (data : Bytes)
    (h : (saveBytesToFile env k fs (some path) (some data)).ret = true) :
    (saveBytesToFile env k fs (some path) (some data)).fs path = some data
      ∧ ∀ (env2 : JNIEnv) (k2 : Kernel) (dataB : Bytes),
          (saveBytesToFile env2 k2 (saveBytesToFile env k fs (some path) (some data)).fs
            (some path) (some dataB)).ret = true →
          (saveBytesToFile env2 k2 (saveBytesToFile env k fs (some path) (some data)).fs
            (some path) (some dataB)).fs path = some dataB :=
  ⟨saveBytesToFile_content env k fs path data h,
    fun env2 k2 dataB h2 => saveBytesToFile_content env2 k2 _ path dataB h2⟩

/-- C4 on a file that held five bytes: saving three bytes leaves those three, and saving
one byte, then no byte, on top leaves one byte, then none. -/
theorem saveBytesToFile_success_replaces_witness :
    (saveBytesToFile okEnv ⟨3, 3, 0⟩ (noFiles.store "f" [9, 9, 9, 9, 9]) (some "f")
        (some [1, 2, 3])).fs "f" = some [1, 2, 3]
      ∧ (saveBytesToFile okEnv ⟨4, 1, 0⟩
          (saveBytesToFile okEnv ⟨3, 3, 0⟩ (noFiles.store "f" [9, 9, 9, 9, 9]) (some "f")
            (some [1, 2, 3])).fs (some "f") (some [7])).fs "f" = some [7]
      ∧ (saveBytesToFile okEnv ⟨4, 0, 0⟩
          (saveBytesToFile okEnv ⟨3, 3, 0⟩ (noFiles.store "f" [9, 9, 9, 9, 9]) (some "f")
            (some [1, 2, 3])).fs (some "f") (some [])).fs "f" = some [] :=
  ⟨(saveBytesToFile_success_replaces okEnv ⟨3, 3, 0⟩ (noFiles.store "f" [9, 9, 9, 9, 9]) "f"
      [1, 2, 3] rfl).1,
    (saveBytesToFile_success_replaces okEnv ⟨3, 3, 0⟩ (noFiles.store "f" [9, 9, 9, 9, 9]) "f"
      [1, 2, 3] rfl).2 okEnv ⟨4, 1, 0⟩ [7] rfl,
    (saveBytesToFile_success_replaces okEnv ⟨3, 3, 0⟩ (noFiles.store "f" [9, 9, 9, 9, 9]) "f"
      [1, 2, 3] rfl).2 okEnv ⟨4, 0, 0⟩ [] rfl⟩

/-- C5: whatever the files were before, if `appendLog(path, line)` reports success then the
file at `path` holds its former contents (none if there was no file) followed by the bytes
of `line`, nothing added; hence a successful append of a second line onto the result leaves
the former contents, the first line and the second line in a row (`"ab"` for `"a"` then
`"b"` on a fresh path). -/
theorem appendLog_success_appends (env : JNIEnv) (k : Kernel) (fs : FileSystem)
    (path : String) (line : Bytes)
    (h : (appendLog env k fs (some path) (some line)).ret = true) :
    (appendLog env k fs (some path) (some line)).fs path
        = some (contentOrEmpty fs path ++ line)
      ∧ ∀ (env2 : JNIEnv) (k2 : Kernel) (line2 : Bytes),
          (appendLog env2 k2 (appendLog env k fs (some path) (some line)).fs
            (some path) (some line2)).ret = true →
          (appendLog env2 k2 (appendLog env k fs (some path) (some line)).fs
            (some path) (some line2)).fs path
              = some (contentOrEmpty fs path ++ line ++ line2) := by
  have h1 := appendLog_content env k fs path line h
  refine ⟨h1, ?_⟩
  intro env2 k2 line2 h2
  rw [appendLog_content env2 k2 _ path line2 h2]
  simp only [contentOrEmpty, h1, Option.getD_some]

/-- C5 on a fresh path: `"a"` (byte 97) then `"b"` (byte 98) leaves `"ab"`. -/
theorem appendLog_success_appends_witness :
    (appendLog okEnv ⟨3, 1, 0⟩ noFiles (some "log") (some [97])).fs "log"
        = some (contentOrEmpty noFiles "log" ++ [97])
      ∧ (appendLog okEnv ⟨3, 1, 0⟩
          (appendLog okEnv ⟨3, 1, 0⟩ noFiles (some "log") (some [97])).fs
          (some "log") (some [98])).fs "log" = some ([] ++ [97] ++ [98]) :=
  ⟨(appendLog_success_appends okEnv ⟨3, 1, 0⟩ noFiles "log" [97] rfl).1,
    (appendLog_success_appends okEnv ⟨3, 1, 0⟩ noFiles "log" [97] rfl).2 okEnv ⟨3, 1, 0⟩
      [98] rfl⟩

/-- C6: in `saveBytesToFile` and in `appendLog`, once the file is open, a `write` that
returns anything but the requested length (a negative value or a short count) makes the
function return failure, and the trace holds that one `write` only: `open`, `write`,
`close`. -/
theorem short_write_fails_without_retry (env : JNIEnv) (k : Kernel) (fs : FileSystem)
    (path : String) (payload : Bytes)
    (henv : env.pathChars = true ∧ env.elements = true) (hopen : 0 ≤ k.openRet)
    (hshort : k.writeRet ≠ (payload.length : Int)) :
    ((saveBytesToFile env k fs (some path) (some payload)).ret = false
        ∧ (saveBytesToFile env k fs (some path) (some payload)).calls
            = [.callOpen path saveFlags 0o644 k.openRet,
               .callWrite k.openRet payload payload.length k.writeRet,
               .callClose k.openRet]
        ∧ countWrites (saveBytesToFile env k fs (some path) (some payload)).calls = 1)
      ∧ ((appendLog env k fs (some path) (some payload)).ret = false
        ∧ (appendLog env k fs (some path) (some payload)).calls
            = [.callOpen path appendFlags 0o644 k.openRet,
               .callWrite k.openRet payload payload.length k.writeRet,
               .callClose k.openRet]
        ∧ countWrites (appendLog env k fs (some path) (some payload)).calls = 1) := by
  have hn : ¬ k.openRet < 0 := by omega
  have hw : k.writeRet < 0 ∨ k.writeRet ≠ (payload.length : Int) := Or.inr hshort
  have hw2 : k.writeRet < 0 ∨ k.writeRet.toNat ≠ payload.length := by omega
  refine ⟨?_, ?_⟩
  · simp [saveBytesToFile, sysOpen, sysWrite, sysClose, henv.1, henv.2, hn, hw, countWrites,
      Syscall.isWrite]
  · simp [appendLog, sysOpen, sysWrite, sysClose, henv.1, henv.2, hn, hw2, countWrites,
      Syscall.isWrite]

/-- C6 with a short count (2 of 3 bytes, no error reported). -/
theorem short_write_fails_without_retry_witness :
    ((saveBytesToFile okEnv ⟨3, 2, 0⟩ noFiles (some "f") (some [1, 2, 3])).ret = false
        ∧ (saveBytesToFile okEnv ⟨3, 2, 0⟩ noFiles (some "f") (some [1, 2, 3])).calls
            = [.callOpen "f" saveFlags 0o644 3, .callWrite 3 [1, 2, 3] 3 2, .callClose 3]
        ∧ countWrites (saveBytesToFile okEnv ⟨3, 2, 0⟩ noFiles (some "f")
            (some [1, 2, 3])).calls = 1)
      ∧ ((appendLog okEnv ⟨3, 2, 0⟩ noFiles (some "f") (some [1, 2, 3])).ret = false
        ∧ (appendLog okEnv ⟨3, 2, 0⟩ noFiles (some "f") (some [1, 2, 3])).calls
            = [.callOpen "f" appendFlags 0o644 3, .callWrite 3 [1, 2, 3] 3 2, .callClose 3]
        ∧ countWrites (appendLog okEnv ⟨3, 2, 0⟩ noFiles (some "f")
            (some [1, 2, 3])).calls = 1) :=
  short_write_fails_without_retry okEnv ⟨3, 2, 0⟩ noFiles "f" [1, 2, 3] ⟨rfl, rfl⟩
    (by decide) (by decide)

/-- C7 as stated fails: with the file open and the whole payload written, an `fsync`
that returns `-1` still leaves both functions returning success; the trace shows the
failed `fsync`. -/
theorem fsync_failure_counterexample :
    (saveBytesToFile okEnv ⟨3, 2, -1⟩ noFiles (some "f") (some [1, 2])).ret = true
      ∧ Syscall.callFsync 3 (-1)
          ∈ (saveBytesToFile okEnv ⟨3, 2, -1⟩ noFiles (some "f") (some [1, 2])).calls
      ∧ (appendLog okEnv ⟨3, 2, -1⟩ noFiles (some "f") (some [1, 2])).ret = true
      ∧ Syscall.callFsync 3 (-1)
          ∈ (appendLog okEnv ⟨3, 2, -1⟩ noFiles (some "f") (some [1, 2])).calls := by
  refine ⟨rfl, ?_, rfl, ?_⟩ <;> decide

/-- C7 amended: in `saveBytesToFile` and in `appendLog`, when `open` succeeds and `write`
returns the full length, the function calls `fsync` once, after the `write`, and returns
success whatever `fsync` returns. -/
theorem fsync_result_ignored (env : JNIEnv) (k : Kernel) (fs : FileSystem)
    (path : String) (payload : Bytes)
    (henv : env.pathChars = true ∧ env.elements = true) (hopen : 0 ≤ k.openRet)
    (hfull : k.writeRet = (payload.length : Int)) :
    ((saveBytesToFile env k fs (some path) (some payload)).ret = true
        ∧ (saveBytesToFile env k fs (some path) (some payload)).calls
            = [.callOpen path saveFlags 0o644 k.openRet,
               .callWrite k.openRet payload payload.length k.writeRet,
               .callFsync k.openRet k.fsyncRet,
               .callClose k.openRet])
      ∧ ((appendLog env k fs (some path) (some payload)).ret = true
        ∧ (appendLog env k fs (some path) (some payload)).calls
            = [.callOpen path appendFlags 0o644 k.openRet,
               .callWrite k.openRet payload payload.length k.writeRet,
               .callFsync k.openRet k.fsyncRet,
               .callClose k.openRet]) := by
  have hn : ¬ k.openRet < 0 := by omega
  have hw : ¬ (k.writeRet < 0 ∨ k.writeRet ≠ (payload.length : Int)) := by omega
  have hw2 : ¬ (k.writeRet < 0 ∨ k.writeRet.toNat ≠ payload.length) := by omega
  refine ⟨?_, ?_⟩
  · simp only [saveBytesToFile, sysOpen, sysWrite, sysFsync, sysClose, henv.1, henv.2,
      Bool.true_eq_false, or_self, if_false, hn, hw, Int.toNat_ofNat, List.nil_append,
      List.cons_append, and_self]
  · simp only [appendLog, sysOpen, sysWrite, sysFsync, sysClose, henv.1, henv.2,
      Bool.true_eq_false, or_self, if_false, hn, hw2, List.nil_append, List.cons_append,
      and_self]

/-- C7 amended, with an `fsync` that returns `-1`. -/
theorem fsync_result_ignored_witness :
    ((saveBytesToFile okEnv ⟨5, 1, -1⟩ noFiles (some "f") (some [8])).ret = true
        ∧ (saveBytesToFile okEnv ⟨5, 1, -1⟩ noFiles (some "f") (some [8])).calls
            = [.callOpen "f" saveFlags 0o644 5, .callWrite 5 [8] 1 1, .callFsync 5 (-1),
               .callClose 5])
      ∧ ((appendLog okEnv ⟨5, 1, -1⟩ noFiles (some "f") (some [8])).ret = true
        ∧ (appendLog okEnv ⟨5, 1, -1⟩ noFiles (some "f") (some [8])).calls
            = [.callOpen "f" appendFlags 0o644 5, .callWrite 5 [8] 1 1, .callFsync 5 (-1),
               .callClose 5]) :=
  fsync_result_ignored okEnv ⟨5, 1, -1⟩ noFiles "f" [8] ⟨rfl, rfl⟩ (by decide) (by decide)

/-- C9 as stated fails: on a path without a file, `appendLog` with an empty line returns
success, has created the (empty) file and has made system calls. -/
theorem appendLog_empty_line_counterexample :
    (appendLog okEnv ⟨3, 0, 0⟩ noFiles (some "log") (some [])).ret = true
      ∧ noFiles "log" = none
      ∧ (appendLog okEnv ⟨3, 0, 0⟩ noFiles (some "log") (some [])).fs "log" = some []
      ∧ (appendLog okEnv ⟨3, 0, 0⟩ noFiles (some "log") (some [])).calls
          = [.callOpen "log" appendFlags 0o644 3, .callWrite 3 [] 0 0, .callFsync 3 0,
             .callClose 3] :=
  ⟨rfl, rfl, rfl, rfl⟩

/-- C9 amended: for a non-null path, `appendLog` with an empty line is not rejected before
the I/O: it calls `open` like for any line, returns success exactly when `open` succeeds
and the zero-length `write` returns 0, and when `open` succeeds the file exists afterwards
with its former contents (empty if it was absent). -/
theorem appendLog_empty_line (env : JNIEnv) (k : Kernel) (fs : FileSystem) (path : String)
    (henv : env.pathChars = true ∧ env.elements = true) :
    ((appendLog env k fs (some path) (some [])).ret = true ↔ 0 ≤ k.openRet ∧ k.writeRet = 0)
      ∧ Syscall.callOpen path appendFlags 0o644 k.openRet
          ∈ (appendLog env k fs (some path) (some [])).calls
      ∧ (0 ≤ k.openRet →
          (appendLog env k fs (some path) (some [])).fs path
            = some (contentOrEmpty fs path)) := by
  refine ⟨?_, ?_, ?_⟩
  · rw [appendLog_ret_iff]
    simp [henv.1, henv.2]
  · simp only [appendLog, sysOpen, sysWrite, sysFsync, sysClose, henv.1, henv.2,
      Bool.true_eq_false, or_self, if_false]
    split_ifs <;> simp
  · intro hopen
    have hn : ¬ k.openRet < 0 := by omega
    have h1 := openEffect_appendFlags fs path k.openRet hopen
    have hwe : writeEffect (openEffect fs path appendFlags k.openRet) path appendFlags [] 0
        k.writeRet path = some (contentOrEmpty fs path) := by
      unfold writeEffect
      split_ifs
      · exact h1
      · rw [h1]
        simp [FileSystem.store]
      · rw [h1]
        simp [FileSystem.store]
    simp only [appendLog, sysOpen, sysWrite, sysFsync, sysClose, henv.1, henv.2,
      Bool.true_eq_false, or_self, if_false, hn, List.length_nil]
    split_ifs <;> exact hwe

/-- C9 amended, on a file that holds two bytes: success, and the two bytes stay. -/
theorem appendLog_empty_line_witness :
    ((appendLog okEnv ⟨3, 0, 0⟩ (noFiles.store "log" [97, 98]) (some "log") (some [])).ret
          = true ↔ (0 : Int) ≤ 3 ∧ (0 : Int) = 0)
      ∧ Syscall.callOpen "log" appendFlags 0o644 3
          ∈ (appendLog okEnv ⟨3, 0, 0⟩ (noFiles.store "log" [97, 98]) (some "log")
              (some [])).calls
      ∧ ((0 : Int) ≤ 3 →
          (appendLog okEnv ⟨3, 0, 0⟩ (noFiles.store "log" [97, 98]) (some "log")
              (some [])).fs "log"
            = some (contentOrEmpty (noFiles.store "log" [97, 98]) "log")) :=
  appendLog_empty_line okEnv ⟨3, 0, 0⟩ (noFiles.store "log" [97, 98]) "log" ⟨rfl, rfl⟩

/-- C10: in `saveBytesToFile` and in `appendLog`, when the `open` call fails (a negative
descriptor, as for a missing directory) the function returns failure, the trace holds the
`open` only (no `write`, no `fsync`), and the files are what they were: no file is
created at `path`. -/
theorem open_failure_leaves_files (env : JNIEnv) (k : Kernel) (fs : FileSystem)
    (path : String) (payload : Bytes)
    (henv : env.pathChars = true ∧ env.elements = true) (hopen : k.openRet < 0) :
    ((saveBytesToFile env k fs (some path) (some payload)).ret = false
        ∧ (saveBytesToFile env k fs (some path) (some payload)).calls
            = [.callOpen path saveFlags 0o644 k.openRet]
        ∧ (saveBytesToFile env k fs (some path) (some payload)).fs = fs)
      ∧ ((appendLog env k fs (some path) (some payload)).ret = false
        ∧ (appendLog env k fs (some path) (some payload)).calls
            = [.callOpen path appendFlags 0o644 k.openRet]
        ∧ (appendLog env k fs (some path) (some payload)).fs = fs) := by
  refine ⟨?_, ?_⟩
  · simp only [saveBytesToFile, sysOpen, henv.1, henv.2, Bool.true_eq_false, or_self,
      if_false, hopen, if_true, openEffect_failed fs path saveFlags k.openRet hopen,
      List.nil_append, and_self]
  · simp only [appendLog, sysOpen, henv.1, henv.2, Bool.true_eq_false, or_self,
      if_false, hopen, if_true, openEffect_failed fs path appendFlags k.openRet hopen,
      List.nil_append, and_self]

/-- C10 with `open` returning `-1` on a path in a missing directory. -/
theorem open_failure_leaves_files_witness :
    ((saveBytesToFile okEnv ⟨-1, 0, 0⟩ noFiles (some "missing/f") (some [1])).ret = false
        ∧ (saveBytesToFile okEnv ⟨-1, 0, 0⟩ noFiles (some "missing/f") (some [1])).calls
            = [.callOpen "missing/f" saveFlags 0o644 (-1)]
        ∧ (saveBytesToFile okEnv ⟨-1, 0, 0⟩ noFiles (some "missing/f") (some [1])).fs = noFiles)
      ∧ ((appendLog okEnv ⟨-1, 0, 0⟩ noFiles (some "missing/f") (some [1])).ret = false
        ∧ (appendLog okEnv ⟨-1, 0, 0⟩ noFiles (some "missing/f") (some [1])).calls
            = [.callOpen "missing/f" appendFlags 0o644 (-1)]
        ∧ (appendLog okEnv ⟨-1, 0, 0⟩ noFiles (some "missing/f") (some [1])).fs = noFiles) :=
  open_failure_leaves_files okEnv ⟨-1, 0, 0⟩ noFiles "missing/f" [1] ⟨rfl, rfl⟩ (by decide)

end DashcamSystem
